import Mathlib

/-!
Verification of the glyph-catcher Unicode data pipeline (`src/uniff_charset`).

This file gives a shallow embedding, in Lean 4, of the data model and the
operations of the pipeline: the content-addressable cache checksum
(`processor.py`: `calculate_file_checksum`, `calculate_source_files_checksum`),
master-snapshot persistence and loading (`save_master_data_file`,
`load_master_data_file`), the alias merger (`process_data_files`,
`normalize_alias`), the CLDR annotation parser (`parse_cldr_annotations`),
dataset/block filtering (`filter_by_dataset`, `filter_by_unicode_blocks`) and
the exporter entry points (`exporter.py`: `export_data`, `optimized_export`;
`exporters/csv_exporter.py`: `CSVExporter.write`).

Python strings are modelled as Lean `String` (a sequence of code points,
`String.data : List Char`).  `str.lower`/`str.upper` are modelled on the ASCII
range, `str.strip` with `Char.isWhitespace`, and Python's `sorted` on strings
as an insertion sort under code-point lexicographic order, which is Python's
string order.  The cryptographic MD5 digest (library `hashlib`) is an external
collaborator and is modelled as an abstract digest function; its
collision-freedom enters the relevant theorems as explicit hypotheses, in line
with the specification's own hedge ("with overwhelming probability").
-/

/-- Python `str.lower` restricted to one code point (ASCII case mapping). -/
def pyCharLower (c : Char) : Char :=
  if 65 ≤ c.toNat ∧ c.toNat ≤ 90 then Char.ofNat (c.toNat + 32) else c

/-- Python `str.upper` restricted to one code point (ASCII case mapping). -/
def pyCharUpper (c : Char) : Char :=
  if 97 ≤ c.toNat ∧ c.toNat ≤ 122 then Char.ofNat (c.toNat - 32) else c

/-- Python `s.lower()`. -/
def pyLower (s : String) : String := ⟨s.data.map pyCharLower⟩

/-- Python `s.upper()`. -/
def pyUpper (s : String) : String := ⟨s.data.map pyCharUpper⟩

/-- Python `s.strip()` on the underlying character list: drop whitespace from
the front, then from the back. -/
def stripChars (l : List Char) : List Char :=
  List.rdropWhile Char.isWhitespace (List.dropWhile Char.isWhitespace l)

/-- Python `s.strip()`. -/
def pyStrip (s : String) : String := ⟨stripChars s.data⟩

/-- Code-point lexicographic comparison of character lists; this is exactly
Python's `<=` on strings. -/
def lexLe : List Char → List Char → Bool
  | [], _ => true
  | _ :: _, [] => false
  | a :: as, b :: bs =>
    if a < b then true else if b < a then false else lexLe as bs

/-- Python `<=` on strings (code-point lexicographic order). -/
def strLe (a b : String) : Prop := lexLe a.data b.data = true

instance : DecidableRel strLe := fun a b => by unfold strLe; infer_instance

theorem lexLe_refl (l : List Char) : lexLe l l = true := by
  induction l with
  | nil => rfl
  | cons a as ih => simp [lexLe, ih]

theorem lexLe_total (a b : List Char) : lexLe a b = true ∨ lexLe b a = true := by
  induction a generalizing b with
  | nil => left; rfl
  | cons x xs ih =>
    cases b with
    | nil => right; rfl
    | cons y ys =>
      rcases lt_trichotomy x y with h | h | h
      · left; simp [lexLe, h]
      · subst h
        rcases ih ys with h' | h'
        · left; simp [lexLe, lt_irrefl, h']
        · right; simp [lexLe, lt_irrefl, h']
      · right; simp [lexLe, h]

theorem lexLe_antisymm {a b : List Char} (hab : lexLe a b = true)
    (hba : lexLe b a = true) : a = b := by
  induction a generalizing b with
  | nil =>
    cases b with
    | nil => rfl
    | cons y ys => simp [lexLe] at hba
  | cons x xs ih =>
    cases b with
    | nil => simp [lexLe] at hab
    | cons y ys =>
      rcases lt_trichotomy x y with h | h | h
      · simp [lexLe, h, not_lt_of_gt h] at hba
      · subst h
        simp [lexLe, lt_irrefl] at hab hba
        rw [ih hab hba]
      · simp [lexLe, h, not_lt_of_gt h] at hab

theorem lexLe_trans {a b c : List Char} (hab : lexLe a b = true)
    (hbc : lexLe b c = true) : lexLe a c = true := by
  induction a generalizing b c with
  | nil => rfl
  | cons x xs ih =>
    cases b with
    | nil => simp [lexLe] at hab
    | cons y ys =>
      cases c with
      | nil => simp [lexLe] at hbc
      | cons z zs =>
        rcases lt_trichotomy x y with hxy | hxy | hxy
        · rcases lt_trichotomy y z with hyz | hyz | hyz
          · simp [lexLe, lt_trans hxy hyz]
          · subst hyz; simp [lexLe, hxy]
          · simp [lexLe, hyz, not_lt_of_gt hyz] at hbc
        · subst hxy
          rcases lt_trichotomy x z with hyz | hyz | hyz
          · simp [lexLe, hyz]
          · subst hyz
            simp [lexLe, lt_irrefl] at hab hbc ⊢
            exact ih hab hbc
          · simp [lexLe, hyz, not_lt_of_gt hyz] at hbc
        · simp [lexLe, hxy, not_lt_of_gt hxy] at hab

instance : IsTotal String strLe := ⟨fun a b => lexLe_total a.data b.data⟩

instance : IsTrans String strLe := ⟨fun _ _ _ => lexLe_trans⟩

instance : IsAntisymm String strLe :=
  ⟨fun a b hab hba => String.ext (lexLe_antisymm hab hba)⟩

instance : IsRefl String strLe := ⟨fun a => lexLe_refl a.data⟩

/-- Python's `sorted` on a list of strings: the ascending reordering under
code-point lexicographic order. -/
def pySorted (l : List String) : List String := List.insertionSort strLe l

/-- Python's `"sep".join` / `str.join` at the character-list level. -/
def joinSep (sep : List Char) : List (List Char) → List Char
  | [] => []
  | [x] => x
  | x :: y :: xs => x ++ sep ++ joinSep sep (y :: xs)

/-- Python `format(n, "X")`: uppercase hexadecimal digits, no padding. -/
def formatHexUpper (n : Nat) : String := ⟨(Nat.toDigits 16 n).map Char.toUpper⟩

/-- Python `s.split(sep)` for a one-character separator, at the character-list
level: adjacent separators and boundary separators produce empty segments,
and the empty input yields one empty segment. -/
def splitChar (sep : Char) : List Char → List (List Char)
  | [] => [[]]
  | c :: cs =>
    match splitChar sep cs with
    | [] => [[c]]
    | x :: xs => if c = sep then [] :: x :: xs else (c :: x) :: xs

/-- Python `s.split(sep)` for a one-character separator. -/
def pySplit (sep : Char) (s : String) : List String :=
  (splitChar sep s.data).map fun l => ⟨l⟩

/-! ## Content-addressable cache key (`processor.py:706-751`) -/

/-- Model of the `hashlib.md5` external collaborator: a digest over a byte
stream (as fed chunk-wise by `calculate_file_checksum`; incremental update is
equivalent to hashing the concatenated bytes) and a digest over the UTF-8
encoding of a string.  Collision-freedom is assumed per-theorem. -/
structure MD5 where
  fileDigest : List Nat → String
  textDigest : String → String

/-- `calculate_file_checksum` (processor.py:706-723): MD5 of the file's bytes,
or the empty string when the file does not exist.  The filesystem is modelled
as a partial map from paths to byte contents. -/
def calculate_file_checksum (md : MD5) (fs : String → Option (List Nat))
    (file_path : String) : String :=
  match fs file_path with
  | none => ""
  | some content => md.fileDigest content

/-- The `f"{file_type}:{checksum}"` component string, at character level. -/
def checksum_component (file_type checksum : String) : List Char :=
  file_type.data ++ ':' :: checksum.data

/-- The `checksums` list built by `calculate_source_files_checksum`: one
`"type:hash"` component per file type, in sorted file-type order. -/
def source_components (md : MD5) (fs : String → Option (List Nat))
    (file_paths : List (String × String)) : List (List Char) :=
  (pySorted (file_paths.map Prod.fst)).map fun t =>
    checksum_component t (calculate_file_checksum md fs ((file_paths.lookup t).getD ""))

/-- `calculate_source_files_checksum` (processor.py:726-751): sort the file
types, hash each file, join `"type:hash"` components with `","`, and hash the
joined string. -/
def calculate_source_files_checksum (md : MD5) (fs : String → Option (List Nat))
    (file_paths : List (String × String)) : String :=
  md.textDigest ⟨joinSep [','] (source_components md fs file_paths)⟩

theorem lookup_isSome_of_mem_keys {l : List (String × String)} {t : String}
    (h : t ∈ l.map Prod.fst) : ∃ v, l.lookup t = some v := by
  induction l with
  | nil => simp at h
  | cons p tl ih =>
    by_cases he : t = p.1
    · exact ⟨p.2, by simp [List.lookup, he]⟩
    · have : t ∈ tl.map Prod.fst := by
        rcases List.mem_map.mp h with ⟨q, hq, rfl⟩
        rcases List.mem_cons.mp hq with rfl | hq'
        · exact absurd rfl he
        · exact List.mem_map.mpr ⟨q, hq', rfl⟩
      rcases ih this with ⟨v, hv⟩
      refine ⟨v, ?_⟩
      simpa [List.lookup, beq_false_of_ne he] using hv

theorem joinSep_map_ne {sep : List Char} {keys : List String}
    {f₁ f₂ : String → List Char}
    (hlen : ∀ t ∈ keys, (f₁ t).length = (f₂ t).length)
    (hne : keys.map f₁ ≠ keys.map f₂) :
    joinSep sep (keys.map f₁) ≠ joinSep sep (keys.map f₂) := by
  induction keys with
  | nil => simp at hne
  | cons t ts ih =>
    cases ts with
    | nil =>
      simp only [List.map_cons, List.map_nil, joinSep]
      intro h
      exact hne (by simp [h])
    | cons u us =>
      simp only [List.map_cons, joinSep]
      intro h
      rw [List.append_assoc, List.append_assoc] at h
      have hinj := List.append_inj h (hlen t (by simp))
      rcases hinj with ⟨h1, h2⟩
      have h3 := List.append_cancel_left h2
      by_cases hhead : f₁ t = f₂ t
      · have htail : (u :: us).map f₁ ≠ (u :: us).map f₂ := by
          intro hm
          exact hne (by simp only [List.map_cons] at hm ⊢; rw [hhead, hm])
        exact ih (fun x hx => hlen x (List.mem_cons_of_mem _ hx)) htail
          (by simpa [joinSep] using h3)
      · exact hhead h1

theorem string_data_length (s : String) : s.data.length = s.length := rfl

theorem mem_keys_of_lookup {l : List (String × String)} {t v : String}
    (h : l.lookup t = some v) : t ∈ l.map Prod.fst := by
  induction l with
  | nil => simp [List.lookup] at h
  | cons p tl ih =>
    by_cases he : t = p.1
    · simp [he]
    · simp only [List.lookup, beq_false_of_ne he] at h
      simp [ih h]

/-- C1: the cache key is a deterministic function of the set of
(identifier, file content) pairs: two mappings presenting the same identifier
set in any iteration order, over byte-identical file contents, yield the same
key (identifiers are processed in sorted order); and changing the bytes of any
one contributing file yields a different key, under collision-freedom of the
modelled MD5 digest. -/
theorem c1_checksum_deterministic_and_sensitive (md : MD5) :
    (∀ (fs₁ fs₂ : String → Option (List Nat)) (fp₁ fp₂ : List (String × String)),
      (fp₁.map Prod.fst).Perm (fp₂.map Prod.fst) →
      (∀ t p₁ p₂, fp₁.lookup t = some p₁ → fp₂.lookup t = some p₂ →
        fs₁ p₁ = fs₂ p₂) →
      calculate_source_files_checksum md fs₁ fp₁ =
        calculate_source_files_checksum md fs₂ fp₂) ∧
    (∀ (fs₁ fs₂ : String → Option (List Nat)) (fp : List (String × String))
      (k pk : String) (c₁ c₂ : List Nat),
      fp.lookup k = some pk →
      fs₁ pk = some c₁ → fs₂ pk = some c₂ →
      (∀ t p, fp.lookup t = some p → t ≠ k → fs₁ p = fs₂ p) →
      md.fileDigest c₁ ≠ md.fileDigest c₂ →
      (∀ b, (md.fileDigest b).length = 32) →
      Function.Injective md.textDigest →
      calculate_source_files_checksum md fs₁ fp ≠
        calculate_source_files_checksum md fs₂ fp) := by
  constructor
  · intro fs₁ fs₂ fp₁ fp₂ hperm hagree
    have hkeys : pySorted (fp₁.map Prod.fst) = pySorted (fp₂.map Prod.fst) := by
      refine List.eq_of_perm_of_sorted (r := strLe) ?_ ?_ ?_
      · exact ((List.perm_insertionSort strLe _).trans hperm).trans
          (List.perm_insertionSort strLe _).symm
      · exact List.sorted_insertionSort strLe _
      · exact List.sorted_insertionSort strLe _
    have hcomps : source_components md fs₁ fp₁ = source_components md fs₂ fp₂ := by
      unfold source_components
      rw [hkeys]
      apply List.map_eq_map_iff.mpr
      intro t ht
      have ht₂ : t ∈ fp₂.map Prod.fst := by
        unfold pySorted at ht
        exact (List.perm_insertionSort strLe _).mem_iff.mp ht
      have ht₁ : t ∈ fp₁.map Prod.fst := hperm.mem_iff.mpr ht₂
      rcases lookup_isSome_of_mem_keys ht₁ with ⟨p₁, hp₁⟩
      rcases lookup_isSome_of_mem_keys ht₂ with ⟨p₂, hp₂⟩
      rw [hp₁, hp₂]
      unfold calculate_file_checksum
      rw [Option.getD_some, Option.getD_some, hagree t p₁ p₂ hp₁ hp₂]
    unfold calculate_source_files_checksum
    rw [hcomps]
  · intro fs₁ fs₂ fp k pk c₁ c₂ hk hc₁ hc₂ hagree hnocoll hlen hinj h
    have hjoin : joinSep [','] (source_components md fs₁ fp) =
        joinSep [','] (source_components md fs₂ fp) :=
      congrArg String.data (hinj h)
    set keys := pySorted (fp.map Prod.fst) with hkeysdef
    have hkmem : k ∈ keys := by
      rw [hkeysdef]
      unfold pySorted
      exact (List.perm_insertionSort strLe _).mem_iff.mpr (mem_keys_of_lookup hk)
    have hflen : ∀ t ∈ keys,
        (checksum_component t
          (calculate_file_checksum md fs₁ ((fp.lookup t).getD ""))).length =
        (checksum_component t
          (calculate_file_checksum md fs₂ ((fp.lookup t).getD ""))).length := by
      intro t ht
      have htm : t ∈ fp.map Prod.fst := by
        rw [hkeysdef] at ht
        unfold pySorted at ht
        exact (List.perm_insertionSort strLe _).mem_iff.mp ht
      rcases lookup_isSome_of_mem_keys htm with ⟨p, hopt⟩
      have hdl : (calculate_file_checksum md fs₁ ((fp.lookup t).getD "")).data.length =
          (calculate_file_checksum md fs₂ ((fp.lookup t).getD "")).data.length := by
        unfold calculate_file_checksum
        rw [hopt]
        simp only [Option.getD_some]
        by_cases hek : t = k
        · subst hek
          rw [hopt] at hk
          cases hk
          rw [hc₁, hc₂]
          show (md.fileDigest c₁).data.length = (md.fileDigest c₂).data.length
          rw [string_data_length, string_data_length, hlen c₁, hlen c₂]
        · rw [hagree t p hopt hek]
      unfold checksum_component
      simp only [List.length_append, List.length_cons, hdl]
    have hfk : checksum_component k
          (calculate_file_checksum md fs₁ ((fp.lookup k).getD "")) ≠
        checksum_component k
          (calculate_file_checksum md fs₂ ((fp.lookup k).getD "")) := by
      unfold checksum_component calculate_file_checksum
      rw [hk]
      simp only [Option.getD_some]
      rw [hc₁, hc₂]
      intro hq
      have hq2 := List.append_cancel_left hq
      have hq3 : (md.fileDigest c₁).data = (md.fileDigest c₂).data :=
        List.tail_eq_of_cons_eq hq2
      exact hnocoll (String.ext hq3)
    have hmapne : keys.map (fun t => checksum_component t
          (calculate_file_checksum md fs₁ ((fp.lookup t).getD ""))) ≠
        keys.map (fun t => checksum_component t
          (calculate_file_checksum md fs₂ ((fp.lookup t).getD ""))) := by
      intro hm
      exact hfk (List.map_eq_map_iff.mp hm k hkmem)
    exact joinSep_map_ne hflen hmapne hjoin

/-- Non-vacuity witness for `c1_checksum_deterministic_and_sensitive`: a toy
collision-free digest, a two-file mapping presented in two orders, and a
one-byte content change. -/
theorem c1_witness :
    (fun md =>
      calculate_source_files_checksum md
          (fun p => if p = "/a" then some [0] else some [1])
          [("unicode_data", "/a"), ("name_aliases", "/b")] =
        calculate_source_files_checksum md
          (fun p => if p = "/a" then some [0] else some [1])
          [("name_aliases", "/b"), ("unicode_data", "/a")] ∧
      calculate_source_files_checksum md
          (fun _ => some [0]) [("unicode_data", "/a")] ≠
        calculate_source_files_checksum md
          (fun _ => some [1]) [("unicode_data", "/a")])
      ⟨fun b => ⟨List.replicate 31 'a' ++ [if b.sum % 2 = 0 then 'x' else 'y']⟩,
       id⟩ := by
  constructor
  · refine (c1_checksum_deterministic_and_sensitive _).1 _ _ _ _ (by decide) ?_
    intro t p₁ p₂ h₁ h₂
    by_cases hu : t = "unicode_data"
    · subst hu
      simp only [List.lookup,
        show (("unicode_data" : String) == "name_aliases") = false from by decide,
        show (("unicode_data" : String) == "unicode_data") = true from by decide]
        at h₁ h₂
      cases h₁; cases h₂; rfl
    · by_cases hn : t = "name_aliases"
      · subst hn
        simp only [List.lookup,
          show (("name_aliases" : String) == "unicode_data") = false from by decide,
          show (("name_aliases" : String) == "name_aliases") = true from by decide]
          at h₁ h₂
        cases h₁; cases h₂; rfl
      · simp only [List.lookup, beq_false_of_ne hu, beq_false_of_ne hn] at h₁
        exact Option.noConfusion h₁
  · refine (c1_checksum_deterministic_and_sensitive _).2 _ _ _
      "unicode_data" "/a" [0] [1] (by decide) rfl rfl ?_ (by decide) ?_
      (fun a b h => h)
    · intro t p h₁ h₂
      simp only [List.lookup, beq_false_of_ne h₂] at h₁
      exact Option.noConfusion h₁
    · intro b
      simp [String.length, List.length_append, List.length_replicate]

/-! ## Data model and dataset/block filtering (`processor.py:371-452`) -/

/-- One character record of the master dataset: the
`{'name', 'category', 'char_obj', 'block'}` dictionary built by
`parse_unicode_data`.  The `block` key is optional because the filtering and
export code guards every access with `"block" in char_info` / `.get`. -/
structure CharInfo where
  name : String
  category : String
  char_obj : String
  block : Option String
deriving DecidableEq

/-- `DATASET_COMPLETE` (config.py). -/
def DATASET_COMPLETE : String := "complete"

/-- `DATASET_TEST` (config.py). -/
def DATASET_TEST : String := "test"

/-- `filter_by_unicode_blocks` (processor.py:420-452): an absent (`None`) or
empty block list, or a list containing the sentinel `"all"`, returns the
dataset unchanged; otherwise keep the records whose `block` field is present
and a member of the list, and restrict the alias mapping to the kept code
points that have an alias entry. -/
def filter_by_unicode_blocks (unicode_data : List (String × CharInfo))
    (aliases_data : List (String × List String)) (blocks : Option (List String)) :
    List (String × CharInfo) × List (String × List String) :=
  match blocks with
  | none => (unicode_data, aliases_data)
  | some bl =>
    if bl = [] then (unicode_data, aliases_data)
    else if "all" ∈ bl then (unicode_data, aliases_data)
    else
      let filtered_unicode_data := unicode_data.filter fun p =>
        match p.2.block with
        | some b => decide (b ∈ bl)
        | none => false
      let filtered_aliases_data := filtered_unicode_data.filterMap fun p =>
        (aliases_data.lookup p.1).map fun l => (p.1, l)
      (filtered_unicode_data, filtered_aliases_data)

/-- The `test` dataset loop of `filter_by_dataset` (processor.py:388-407):
walk the sorted code points, keep records in the `Basic Latin` block together
with their alias entries, and stop after 50 kept records. -/
def collect_test_subset (unicode_data : List (String × CharInfo))
    (aliases_data : List (String × List String)) :
    List String → Nat → List (String × CharInfo) × List (String × List String)
  | [], _ => ([], [])
  | cp :: rest, count =>
    match unicode_data.lookup cp with
    | none => collect_test_subset unicode_data aliases_data rest count
    | some ci =>
      if ci.block = some "Basic Latin" then
        let tail :=
          if 50 ≤ count + 1 then ([], [])
          else collect_test_subset unicode_data aliases_data rest (count + 1)
        ((cp, ci) :: tail.1,
          match aliases_data.lookup cp with
          | some l => (cp, l) :: tail.2
          | none => tail.2)
      else collect_test_subset unicode_data aliases_data rest count

/-- `filter_by_dataset` (processor.py:371-417): the `test` dataset takes a
bounded sorted prefix of `Basic Latin`; otherwise the dataset name resolves to
a block list through the (configuration-supplied) dataset table, and a falsy
block list or the `complete` dataset bypasses filtering. -/
def filter_by_dataset (datasets : List (String × List String))
    (unicode_data : List (String × CharInfo))
    (aliases_data : List (String × List String)) (dataset : String) :
    List (String × CharInfo) × List (String × List String) :=
  if dataset = DATASET_TEST then
    collect_test_subset unicode_data aliases_data
      (pySorted (unicode_data.map Prod.fst)) 0
  else
    let blocks := datasets.lookup dataset
    if blocks = none ∨ blocks = some [] ∨ dataset = DATASET_COMPLETE then
      (unicode_data, aliases_data)
    else
      filter_by_unicode_blocks unicode_data aliases_data blocks

/-- C5: filtering by an explicit block list that does not trigger a bypass
keeps only records whose block is in the requested set, never grows the
record count, and restricts the alias mapping to retained code points (each
retained alias entry is the original entry of a retained record); a `None` or
empty block list, a list containing the sentinel `"all"`, or a dataset name
resolving to no restriction returns the dataset unchanged.  (The embedding is
functional, so the input dataset is never mutated by construction.) -/
theorem c5_filter_monotone_and_bypass (ud : List (String × CharInfo))
    (ad : List (String × List String)) :
    (∀ bl : List String, bl ≠ [] → "all" ∉ bl →
      (∀ p ∈ (filter_by_unicode_blocks ud ad (some bl)).1,
        ∃ b, p.2.block = some b ∧ b ∈ bl) ∧
      (filter_by_unicode_blocks ud ad (some bl)).1.length ≤ ud.length ∧
      (∀ q ∈ (filter_by_unicode_blocks ud ad (some bl)).2,
        (∃ ci, (q.1, ci) ∈ (filter_by_unicode_blocks ud ad (some bl)).1) ∧
        ad.lookup q.1 = some q.2)) ∧
    filter_by_unicode_blocks ud ad none = (ud, ad) ∧
    filter_by_unicode_blocks ud ad (some []) = (ud, ad) ∧
    (∀ bl, "all" ∈ bl → filter_by_unicode_blocks ud ad (some bl) = (ud, ad)) ∧
    (∀ (datasets : List (String × List String)) (dataset : String),
      dataset ≠ DATASET_TEST →
      datasets.lookup dataset = none ∨ datasets.lookup dataset = some [] →
      filter_by_dataset datasets ud ad dataset = (ud, ad)) := by
  refine ⟨?_, rfl, by simp [filter_by_unicode_blocks], ?_, ?_⟩
  · intro bl hne hall
    unfold filter_by_unicode_blocks
    simp only [hne, if_false, hall, if_false]
    refine ⟨?_, ?_, ?_⟩
    · intro p hp
      have := List.of_mem_filter hp
      rcases hb : p.2.block with _ | b
      · rw [hb] at this; exact absurd this (by simp)
      · rw [hb] at this
        exact ⟨b, rfl, of_decide_eq_true this⟩
    · exact List.length_filter_le _ _
    · intro q hq
      rcases List.mem_filterMap.mp hq with ⟨a, ha, hmap⟩
      rcases hl : ad.lookup a.1 with _ | l
      · rw [hl] at hmap; exact absurd hmap (by simp)
      · rw [hl] at hmap
        simp only [Option.map_some'] at hmap
        injection hmap with hmap
        subst hmap
        exact ⟨⟨a.2, by simpa using ha⟩, hl⟩
  · intro bl hall
    unfold filter_by_unicode_blocks
    have hne : bl ≠ [] := by rintro rfl; simp at hall
    simp [hne, hall]
  · intro datasets dataset hne hfalsy
    unfold filter_by_dataset
    simp only [hne, if_false]
    rcases hfalsy with h | h <;> simp [h]

/-- Non-vacuity witness for `c5_filter_monotone_and_bypass`: a two-record
dataset filtered to `Basic Latin` retains exactly the Basic Latin record and
its alias entry, and an unrestricted dataset name is a bypass. -/
theorem c5_witness :
    (∃ b, (some "Basic Latin" : Option String) = some b ∧ b ∈ ["Basic Latin"]) ∧
    List.lookup "0041" [("0041", ["latin letter a"])] = some ["latin letter a"] ∧
    filter_by_dataset [("every-day", [])]
      [("0041", ⟨"LATIN CAPITAL LETTER A", "Lu", "A", some "Basic Latin"⟩),
       ("0391", ⟨"GREEK CAPITAL LETTER ALPHA", "Lu", "Α", some "Greek and Coptic"⟩)]
      [("0041", ["latin letter a"])] "every-day" =
      ([("0041", ⟨"LATIN CAPITAL LETTER A", "Lu", "A", some "Basic Latin"⟩),
        ("0391", ⟨"GREEK CAPITAL LETTER ALPHA", "Lu", "Α", some "Greek and Coptic"⟩)],
       [("0041", ["latin letter a"])]) := by
  have h := c5_filter_monotone_and_bypass
    [("0041", ⟨"LATIN CAPITAL LETTER A", "Lu", "A", some "Basic Latin"⟩),
     ("0391", ⟨"GREEK CAPITAL LETTER ALPHA", "Lu", "Α", some "Greek and Coptic"⟩)]
    [("0041", ["latin letter a"])]
  have h1 := (h.1 ["Basic Latin"] (by decide) (by decide)).1
    ("0041", ⟨"LATIN CAPITAL LETTER A", "Lu", "A", some "Basic Latin"⟩)
    (by decide)
  have h3 := (h.1 ["Basic Latin"] (by decide) (by decide)).2.2
    ("0041", ["latin letter a"]) (by decide)
  exact ⟨h1, h3.2, h.2.2.2.2 [("every-day", [])] "every-day" (by decide)
    (Or.inr (by decide))⟩

/-! ## Alias normalization and merging (`processor.py:241-368`) -/

/-- `normalize_alias` (processor.py:241-251): `alias.lower().strip()`. -/
def normalize_alias (a : String) : String := pyStrip (pyLower a)

/-- `ALIAS_SOURCE_FORMAL` (config.py). -/
def ALIAS_SOURCE_FORMAL : String := "formal_aliases"

/-- `ALIAS_SOURCE_INFORMATIVE` (config.py). -/
def ALIAS_SOURCE_INFORMATIVE : String := "informative_aliases"

/-- `ALIAS_SOURCE_CLDR` (config.py). -/
def ALIAS_SOURCE_CLDR : String := "cldr_annotations"

/-- The `alias_sets` update
`if normalized_alias not in alias_sets[code_point]: alias_sets[code_point].add(...)`:
the per-key set is modelled as its insertion-ordered duplicate-free list, and
`defaultdict` appends a fresh key at the end. -/
def insert_alias (m : List (String × List String)) (key a : String) :
    List (String × List String) :=
  match m with
  | [] => [(key, [a])]
  | (k, s) :: rest =>
    if k = key then
      if a ∈ s then (k, s) :: rest else (k, s ++ [a]) :: rest
    else (k, s) :: insert_alias rest key a

/-- One of the three per-source loops of `process_data_files`
(processor.py:309-362): iterate the source's `(code_point, aliases)` pairs and
insert each normalized alias under `keyf code_point` (`keyf` is `id` for the
formal and CLDR loops and `str.upper` for the informative loop). -/
def add_source_aliases (keyf : String → String)
    (src : List (String × List String)) (m : List (String × List String)) :
    List (String × List String) :=
  src.foldl
    (fun m p => p.2.foldl (fun m a => insert_alias m (keyf p.1) (normalize_alias a)) m)
    m

/-- The merge stage of `process_data_files` (processor.py:292-368), taking the
enabled alias-source names and the three parser outputs: formal aliases are
inserted under their code point verbatim, informative aliases under the
uppercased code point, CLDR annotations under their code point verbatim;
finally every per-key set is converted to a sorted list. -/
def process_data_files (alias_sources : List String)
    (formal_aliases informative_aliases cldr_annotations :
      List (String × List String)) : List (String × List String) :=
  let s1 := if ALIAS_SOURCE_FORMAL ∈ alias_sources then
      add_source_aliases id formal_aliases [] else []
  let s2 := if ALIAS_SOURCE_INFORMATIVE ∈ alias_sources then
      add_source_aliases pyUpper informative_aliases s1 else s1
  let s3 := if ALIAS_SOURCE_CLDR ∈ alias_sources then
      add_source_aliases id cldr_annotations s2 else s2
  s3.map fun p => (p.1, pySorted p.2)

theorem pyCharLower_idem (c : Char) : pyCharLower (pyCharLower c) = pyCharLower c := by
  unfold pyCharLower
  by_cases h : 65 ≤ c.toNat ∧ c.toNat ≤ 90
  · rw [if_pos h]
    have hv : Nat.isValidChar (c.toNat + 32) := Or.inl (by omega)
    have htn : (Char.ofNat (c.toNat + 32)).toNat = c.toNat + 32 := by
      unfold Char.ofNat
      rw [dif_pos hv]
      rfl
    rw [if_neg (by rw [htn]; omega)]
  · rw [if_neg h, if_neg h]

theorem map_id_of_forall {l : List Char} {f : Char → Char}
    (h : ∀ c ∈ l, f c = c) : l.map f = l := by
  induction l with
  | nil => rfl
  | cons c cs ih => simp [h c (by simp), ih fun x hx => h x (by simp [hx])]

theorem dropWhile_head_false {p : Char → Bool} {l : List Char}
    (h : ∀ hl : 0 < l.length, ¬p (l.get ⟨0, hl⟩) = true) :
    List.dropWhile p l = l := List.dropWhile_eq_self_iff.mpr h

theorem stripChars_idem (l : List Char) : stripChars (stripChars l) = stripChars l := by
  have hAself := List.dropWhile_idempotent Char.isWhitespace l
  have hBA := List.rdropWhile_prefix Char.isWhitespace
    (List.dropWhile Char.isWhitespace l)
  have hBself : List.dropWhile Char.isWhitespace
      (List.rdropWhile Char.isWhitespace (List.dropWhile Char.isWhitespace l)) =
      List.rdropWhile Char.isWhitespace (List.dropWhile Char.isWhitespace l) := by
    apply List.dropWhile_eq_self_iff.mpr
    intro hl
    rw [List.get_eq_getElem, hBA.getElem hl]
    have hAl : 0 < (List.dropWhile Char.isWhitespace l).length :=
      lt_of_lt_of_le hl hBA.length_le
    have hh := List.dropWhile_eq_self_iff.mp hAself hAl
    rw [List.get_eq_getElem] at hh
    exact hh
  show List.rdropWhile Char.isWhitespace (List.dropWhile Char.isWhitespace
    (List.rdropWhile Char.isWhitespace (List.dropWhile Char.isWhitespace l))) = _
  rw [hBself]
  exact List.rdropWhile_idempotent _ _

theorem stripChars_subset {l : List Char} : ∀ c ∈ stripChars l, c ∈ l := by
  intro c hc
  unfold stripChars at hc
  have h1 : c ∈ List.dropWhile Char.isWhitespace l := by
    obtain ⟨t, ht⟩ := List.rdropWhile_prefix Char.isWhitespace
      (List.dropWhile Char.isWhitespace l)
    rw [← ht]
    exact List.mem_append_left _ hc
  exact (List.dropWhile_sublist _).subset h1

theorem normalize_alias_idem (s : String) :
    normalize_alias (normalize_alias s) = normalize_alias s := by
  unfold normalize_alias pyStrip pyLower
  apply String.ext
  show stripChars ((stripChars (s.data.map pyCharLower)).map pyCharLower) =
    stripChars (s.data.map pyCharLower)
  have hmap : (stripChars (s.data.map pyCharLower)).map pyCharLower =
      stripChars (s.data.map pyCharLower) := by
    apply map_id_of_forall
    intro c hc
    have := stripChars_subset c hc
    rcases List.mem_map.mp this with ⟨c₀, _, rfl⟩
    exact pyCharLower_idem c₀
  rw [hmap]
  exact stripChars_idem _

theorem insert_alias_nodup {m : List (String × List String)} {key a : String}
    (h : ∀ p ∈ m, p.2.Nodup) : ∀ p ∈ insert_alias m key a, p.2.Nodup := by
  induction m with
  | nil =>
    intro p hp
    simp only [insert_alias, List.mem_singleton] at hp
    subst hp
    exact List.nodup_singleton a
  | cons q rest ih =>
    intro p hp
    obtain ⟨k, s⟩ := q
    unfold insert_alias at hp
    by_cases hk : k = key
    · rw [if_pos hk] at hp
      by_cases ha : a ∈ s
      · rw [if_pos ha] at hp
        exact h p hp
      · rw [if_neg ha] at hp
        rcases List.mem_cons.mp hp with rfl | hp'
        · have hs := h (k, s) (by simp)
          simp only [List.nodup_append]
          refine ⟨hs, List.nodup_singleton a, ?_⟩
          intro x hx hxa
          rw [List.mem_singleton] at hxa
          subst hxa
          exact ha hx
        · exact h p (List.mem_cons_of_mem _ hp')
    · rw [if_neg hk] at hp
      rcases List.mem_cons.mp hp with rfl | hp'
      · exact h (k, s) (by simp)
      · exact ih (fun r hr => h r (List.mem_cons_of_mem _ hr)) p hp'

theorem fold_insert_nodup (k : String) (as : List String)
    {m : List (String × List String)} (h : ∀ p ∈ m, p.2.Nodup) :
    ∀ p ∈ as.foldl (fun m a => insert_alias m k (normalize_alias a)) m,
      p.2.Nodup := by
  induction as generalizing m with
  | nil => exact h
  | cons a rest ih =>
    rw [List.foldl_cons]
    exact ih (insert_alias_nodup h)

theorem add_source_aliases_nodup (keyf : String → String)
    (src : List (String × List String)) {m : List (String × List String)}
    (h : ∀ p ∈ m, p.2.Nodup) :
    ∀ p ∈ add_source_aliases keyf src m, p.2.Nodup := by
  unfold add_source_aliases
  induction src generalizing m with
  | nil => exact h
  | cons q rest ih =>
    rw [List.foldl_cons]
    exact ih (fold_insert_nodup (keyf q.1) q.2 h)

theorem ite_add_nodup (c : Prop) [Decidable c] (keyf : String → String)
    (src : List (String × List String)) {m : List (String × List String)}
    (h : ∀ r ∈ m, r.2.Nodup) :
    ∀ r ∈ (if c then add_source_aliases keyf src m else m), r.2.Nodup := by
  split
  · exact add_source_aliases_nodup _ _ h
  · exact h

/-- C7: alias normalization is idempotent; merging the same alias (equal
after normalization) from two different enabled sources for the same code
point yields exactly one entry; and every per-code-point alias list produced
by the merger is duplicate-free and lexicographically sorted. -/
theorem c7_normalize_idempotent_merge_dedup_sorted :
    (∀ s, normalize_alias (normalize_alias s) = normalize_alias s) ∧
    (∀ cp a b, normalize_alias a = normalize_alias b →
      process_data_files [ALIAS_SOURCE_FORMAL, ALIAS_SOURCE_CLDR]
        [(cp, [a])] [] [(cp, [b])] = [(cp, [normalize_alias a])]) ∧
    (∀ (sources : List String)
      (fa ia ca : List (String × List String)),
      ∀ p ∈ process_data_files sources fa ia ca,
        p.2.Nodup ∧ List.Sorted strLe p.2) := by
  refine ⟨normalize_alias_idem, ?_, ?_⟩
  · intro cp a b hab
    have hf : ALIAS_SOURCE_FORMAL ∈ [ALIAS_SOURCE_FORMAL, ALIAS_SOURCE_CLDR] := by
      decide
    have hi : ALIAS_SOURCE_INFORMATIVE ∉ [ALIAS_SOURCE_FORMAL, ALIAS_SOURCE_CLDR] := by
      decide
    have hc : ALIAS_SOURCE_CLDR ∈ [ALIAS_SOURCE_FORMAL, ALIAS_SOURCE_CLDR] := by
      decide
    simp only [process_data_files, if_pos hf, if_neg hi, if_pos hc]
    unfold add_source_aliases
    simp only [List.foldl_cons, List.foldl_nil, id_eq]
    rw [← hab]
    simp [insert_alias, pySorted, List.insertionSort, List.orderedInsert]
  · intro sources fa ia ca p hp
    unfold process_data_files at hp
    rcases List.mem_map.mp hp with ⟨q, hq, rfl⟩
    have hinv := ite_add_nodup (ALIAS_SOURCE_CLDR ∈ sources) id ca
      (ite_add_nodup (ALIAS_SOURCE_INFORMATIVE ∈ sources) pyUpper ia
        (ite_add_nodup (ALIAS_SOURCE_FORMAL ∈ sources) id fa
          (by simp : ∀ r ∈ ([] : List (String × List String)), r.2.Nodup)))
    refine ⟨?_, List.sorted_insertionSort strLe q.2⟩
    exact ((List.perm_insertionSort strLe q.2).nodup_iff).mpr (hinv q hq)

/-- Non-vacuity witness for `c7_normalize_idempotent_merge_dedup_sorted`: the
literal alias `" LATIN Letter A "` normalizes idempotently, merging it from
the formal and CLDR sources yields one entry, and that entry is sorted and
duplicate-free. -/
theorem c7_witness :
    normalize_alias (normalize_alias " LATIN Letter A ") =
      normalize_alias " LATIN Letter A " ∧
    process_data_files [ALIAS_SOURCE_FORMAL, ALIAS_SOURCE_CLDR]
      [("0041", [" LATIN Letter A "])] [] [("0041", ["latin letter a"])] =
      [("0041", ["latin letter a"])] ∧
    (["latin letter a"] : List String).Nodup ∧
    List.Sorted strLe ["latin letter a"] := by
  have h := c7_normalize_idempotent_merge_dedup_sorted
  have h2 := h.2.1 "0041" " LATIN Letter A " "latin letter a" (by decide)
  have h3 := h.2.2 [ALIAS_SOURCE_FORMAL, ALIAS_SOURCE_CLDR]
    [("0041", [" LATIN Letter A "])] [] [("0041", ["latin letter a"])]
    ("0041", ["latin letter a"])
    (by rw [h2]; exact List.mem_singleton.mpr (by decide))
  refine ⟨h.1 " LATIN Letter A ", ?_, h3.1, h3.2⟩
  rw [h2]
  have : normalize_alias " LATIN Letter A " = "latin letter a" := by decide
  rw [this]

/-- C6 counterexample: with the formal and informative alias sources enabled
and both reporting code point `00e9` (lowercase hex), the merger produces TWO
entries — the formal loop inserts under the verbatim key `"00e9"` while only
the informative loop uppercases its key to `"00E9"` — refuting the claim that
every enabled source's pairs are inserted under the uppercased code point and
merge into one entry. -/
theorem c6_counterexample :
    process_data_files [ALIAS_SOURCE_FORMAL, ALIAS_SOURCE_INFORMATIVE]
        [("00e9", ["X"])] [("00e9", ["Y"])] [] =
      [("00e9", ["x"]), ("00E9", ["y"])] ∧
    ("00e9" : String) ≠ "00E9" ∧
    (process_data_files [ALIAS_SOURCE_FORMAL, ALIAS_SOURCE_INFORMATIVE]
        [("00e9", ["X"])] [("00e9", ["Y"])] []).length = 2 := by
  refine ⟨by decide, by decide, by decide⟩

/-- C6 (amended): the merger keys informative-source aliases by the
uppercased code point, but formal-source and CLDR-source aliases are inserted
under the code point verbatim (the CLDR parser's keys are already uppercase
by construction, the formal parser's are whatever the file contains). -/
theorem c6_merge_key_per_source (cp a : String) :
    process_data_files [ALIAS_SOURCE_FORMAL] [(cp, [a])] [] [] =
      [(cp, [normalize_alias a])] ∧
    process_data_files [ALIAS_SOURCE_INFORMATIVE] [] [(cp, [a])] [] =
      [(pyUpper cp, [normalize_alias a])] ∧
    process_data_files [ALIAS_SOURCE_CLDR] [] [] [(cp, [a])] =
      [(cp, [normalize_alias a])] := by
  refine ⟨?_, ?_, ?_⟩
  · have hf : ALIAS_SOURCE_FORMAL ∈ [ALIAS_SOURCE_FORMAL] := by decide
    have hi : ALIAS_SOURCE_INFORMATIVE ∉ [ALIAS_SOURCE_FORMAL] := by decide
    have hc : ALIAS_SOURCE_CLDR ∉ [ALIAS_SOURCE_FORMAL] := by decide
    simp only [process_data_files, if_pos hf, if_neg hi, if_neg hc]
    unfold add_source_aliases
    simp [insert_alias, pySorted, List.insertionSort, List.orderedInsert]
  · have hf : ALIAS_SOURCE_FORMAL ∉ [ALIAS_SOURCE_INFORMATIVE] := by decide
    have hi : ALIAS_SOURCE_INFORMATIVE ∈ [ALIAS_SOURCE_INFORMATIVE] := by decide
    have hc : ALIAS_SOURCE_CLDR ∉ [ALIAS_SOURCE_INFORMATIVE] := by decide
    simp only [process_data_files, if_neg hf, if_pos hi, if_neg hc]
    unfold add_source_aliases
    simp [insert_alias, pySorted, List.insertionSort, List.orderedInsert]
  · have hf : ALIAS_SOURCE_FORMAL ∉ [ALIAS_SOURCE_CLDR] := by decide
    have hi : ALIAS_SOURCE_INFORMATIVE ∉ [ALIAS_SOURCE_CLDR] := by decide
    have hc : ALIAS_SOURCE_CLDR ∈ [ALIAS_SOURCE_CLDR] := by decide
    simp only [process_data_files, if_neg hf, if_neg hi, if_pos hc]
    unfold add_source_aliases
    simp [insert_alias, pySorted, List.insertionSort, List.orderedInsert]

/-! ## CLDR annotation parsing (`processor.py:193-238`) -/

/-- One `<annotation>` element of the CLDR annotations XML document:
whether it carries a `type` attribute, its optional `cp` attribute, and its
optional text content. -/
structure XmlAnnotation where
  hasTypeAttr : Bool
  cp : Option String
  text : Option String
deriving DecidableEq

/-- `defaultdict(list)` + `.extend(aliases)`: append the values to the entry
of `key`, creating the entry at the end on first use. -/
def extend_entry (m : List (String × List String)) (key : String)
    (vals : List String) : List (String × List String) :=
  match m with
  | [] => [(key, vals)]
  | (k, s) :: rest =>
    if k = key then (k, s ++ vals) :: rest
    else (k, s) :: extend_entry rest key vals

/-- The element loop of `parse_cldr_annotations` (processor.py:211-230):
skip elements with a `type` attribute; otherwise take the first character of
the `cp` attribute (an empty `cp` raises `IndexError`, modelled as `none`),
format its code point as unpadded uppercase hex, and when the element has
non-empty text, split it on `|`, strip each segment and extend the entry. -/
def parse_cldr_annotations_go (anns : List XmlAnnotation)
    (acc : List (String × List String)) : Option (List (String × List String)) :=
  match anns with
  | [] => some acc
  | ann :: rest =>
    if ann.hasTypeAttr then parse_cldr_annotations_go rest acc
    else
      match ann.cp with
      | none => parse_cldr_annotations_go rest acc
      | some char =>
        match char.data with
        | [] => none
        | c :: _ =>
          let code_point_hex := formatHexUpper c.toNat
          match ann.text with
          | none => parse_cldr_annotations_go rest acc
          | some t =>
            if t = "" then parse_cldr_annotations_go rest acc
            else parse_cldr_annotations_go rest
              (extend_entry acc code_point_hex ((pySplit '|' t).map pyStrip))

/-- `parse_cldr_annotations` (processor.py:193-238): run the element loop;
the `except` clause turns an in-loop error into an empty mapping. -/
def parse_cldr_annotations (anns : List XmlAnnotation) :
    List (String × List String) :=
  match parse_cldr_annotations_go anns [] with
  | some m => m
  | none => []

/-- The merge key as the CLAIM words it (modelled from the claim for the
refutation): the first character's code point as uppercase hexadecimal
zero-padded to at least 4 digits. -/
def claimPaddedKey (n : Nat) : String :=
  ⟨List.replicate (4 - (Nat.toDigits 16 n).length) '0' ++
    (Nat.toDigits 16 n).map Char.toUpper⟩

/-- C8 counterexample: for an `<annotation cp="é">e acute|latin small e</annotation>`
element, the code records the aliases under the UNPADDED key `"E9"`
(`format(ord(char[0]), "X")` does not zero-pad), not under the claimed
zero-padded key `"00E9"`. -/
theorem c8_counterexample :
    parse_cldr_annotations [⟨false, some "é", some "e acute|latin small e"⟩] =
      [("E9", ["e acute", "latin small e"])] ∧
    claimPaddedKey 0xE9 = "00E9" ∧
    (parse_cldr_annotations
      [⟨false, some "é", some "e acute|latin small e"⟩]).lookup "00E9" = none ∧
    ("E9" : String) ≠ "00E9" := by
  refine ⟨by decide, by decide, by decide, by decide⟩

/-- C8 (amended): elements with a `type` attribute are skipped entirely; for
an element without one, the merge key is the first character of the `cp`
attribute formatted as UNPADDED uppercase hexadecimal, and the non-empty text
is split on `|` with each segment whitespace-trimmed before being recorded as
the aliases for that key. -/
theorem c8_annotation_parse :
    (∀ (ann : XmlAnnotation) (anns : List XmlAnnotation)
      (acc : List (String × List String)), ann.hasTypeAttr = true →
      parse_cldr_annotations_go (ann :: anns) acc =
        parse_cldr_annotations_go anns acc) ∧
    (∀ (c : Char) (cs : List Char) (t : String), t ≠ "" →
      parse_cldr_annotations [⟨false, some ⟨c :: cs⟩, some t⟩] =
        [(formatHexUpper c.toNat, (pySplit '|' t).map pyStrip)]) := by
  constructor
  · intro ann anns acc htype
    conv_lhs => rw [parse_cldr_annotations_go]
    simp only [htype, if_true]
  · intro c cs t ht
    unfold parse_cldr_annotations parse_cldr_annotations_go
    simp only [Bool.false_eq_true, if_false, if_neg ht]
    rfl

/-- Non-vacuity witness for `c8_annotation_parse`: a `type`-attributed element
is skipped, and the `é` element's text is split, trimmed and keyed by `E9`. -/
theorem c8_witness :
    parse_cldr_annotations_go
        [⟨true, some "é", some "tts name"⟩] [("0041", ["a"])] =
      parse_cldr_annotations_go [] [("0041", ["a"])] ∧
    parse_cldr_annotations [⟨false, some "é", some " e acute | latin small e "⟩] =
      [(formatHexUpper 'é'.toNat,
        (pySplit '|' " e acute | latin small e ").map pyStrip)] := by
  constructor
  · exact c8_annotation_parse.1 ⟨true, some "é", some "tts name"⟩ [] [("0041", ["a"])]
      rfl
  · exact c8_annotation_parse.2 'é' [] " e acute | latin small e " (by decide)

/-! ## MasterSnapshot persistence (`processor.py:455-543`) -/

/-- A filesystem operation performed by the persistence code. -/
inductive FsOp
  | makedirs (d : String)
  | openTrunc (p : String)
  | writeAll (p : String) (content : String)
  | closeFile (p : String)
  | renameFile (src dst : String)
  | readFile (p : String)
deriving DecidableEq

/-- Interpret one operation on the filesystem contents (paths to file
contents): `open(p, "w")` truncates (an empty file becomes visible at `p`),
writes append, directory creation and closing do not change contents. -/
def applyFsOp (fs : String → Option String) : FsOp → (String → Option String)
  | .makedirs _ => fs
  | .openTrunc p => fun q => if q = p then some "" else fs q
  | .writeAll p s => fun q => if q = p then some ((fs p).getD "" ++ s) else fs q
  | .closeFile _ => fs
  | .renameFile src dst => fun q =>
      if q = dst then fs src else if q = src then none else fs q
  | .readFile _ => fs

/-- Run a sequence of filesystem operations. -/
def runFsOps (fs : String → Option String) (ops : List FsOp) :
    String → Option String :=
  ops.foldl applyFsOp fs

/-- `MASTER_DATA_FILE` (config.py). -/
def MASTER_DATA_FILE : String := "unicode_master_data.json"

/-- `get_master_file_path` (processor.py:589-641) for a given data directory:
`unicode_master_data_<checksum>.json` when a checksum is supplied (the
pipeline passes one explicitly, core.py:291-297; the `file_paths` branch
computes the same checksum first), the legacy fixed name otherwise. -/
def get_master_file_path (data_dir : String) (checksum : Option String) : String :=
  match checksum with
  | some ck => data_dir ++ "/" ++ "unicode_master_data_" ++ ck ++ ".json"
  | none => data_dir ++ "/" ++ MASTER_DATA_FILE

/-- `save_master_data_file` (processor.py:455-543): reject an empty dataset,
otherwise create the data directory and write the serialized snapshot
DIRECTLY to the final master path with `open(master_file_path, "w")` —
truncate, write, close; there is no temporary name and no rename.  The
`json.dump` serialization of `master_data` is abstracted as the `payload`
string (`json.dump` writes it in several chunks; a single write is the most
favourable case for the claim).  Returns the written path and the operation
trace. -/
def save_master_data_file (unicode_data : List (String × CharInfo))
    (aliases_data : List (String × List String)) (data_dir : String)
    (checksum : Option String) (payload : String) :
    Option String × List FsOp :=
  if unicode_data = [] ∨ aliases_data = [] then (none, [])
  else
    let master_file_path := get_master_file_path data_dir checksum
    (some master_file_path,
      [FsOp.makedirs data_dir, FsOp.openTrunc master_file_path,
       FsOp.writeAll master_file_path payload, FsOp.closeFile master_file_path])

theorem string_empty_append (s : String) : "" ++ s = s := by
  cases s
  rfl

/-- C2 counterexample: persisting a new snapshot `"NEWSNAPSHOT"` over an
existing `"OLDSNAPSHOT"`: after the `open(path, "w")` step the final path
holds an empty partial file — neither the old nor the new complete snapshot —
and the trace opens the final name itself, with no temporary name and no
atomic rename. -/
theorem c2_counterexample :
    runFsOps
        (fun q => if q = get_master_file_path "/data" (some "abc")
          then some "OLDSNAPSHOT" else none)
        ((save_master_data_file
          [("0041", ⟨"LATIN CAPITAL LETTER A", "Lu", "A", some "Basic Latin"⟩)]
          [("0041", ["latin letter a"])] "/data" (some "abc") "NEWSNAPSHOT").2.take 2)
        (get_master_file_path "/data" (some "abc")) = some "" ∧
    (some "" ≠ some "OLDSNAPSHOT" ∧ some "" ≠ some "NEWSNAPSHOT") ∧
    (save_master_data_file
        [("0041", ⟨"LATIN CAPITAL LETTER A", "Lu", "A", some "Basic Latin"⟩)]
        [("0041", ["latin letter a"])] "/data" (some "abc") "NEWSNAPSHOT").2 =
      [FsOp.makedirs "/data",
       FsOp.openTrunc (get_master_file_path "/data" (some "abc")),
       FsOp.writeAll (get_master_file_path "/data" (some "abc")) "NEWSNAPSHOT",
       FsOp.closeFile (get_master_file_path "/data" (some "abc"))] ∧
    (save_master_data_file
        [("0041", ⟨"LATIN CAPITAL LETTER A", "Lu", "A", some "Basic Latin"⟩)]
        [("0041", ["latin letter a"])] "/data" (some "abc") "NEWSNAPSHOT").2.all
      (fun op => match op with
        | FsOp.renameFile _ _ => false
        | _ => true) = true := by
  refine ⟨by decide, ⟨by decide, by decide⟩, by decide, by decide⟩

/-- C2 (amended): `save_master_data_file` rejects an empty dataset before any
filesystem operation, and otherwise writes the new snapshot directly under
its final name — `makedirs`, truncating open of the final path, write, close;
no temporary name, no rename.  Mid-persist (after the truncating open) the
final path holds an empty partial snapshot; after the full trace it holds the
complete new snapshot. -/
theorem c2_save_writes_final_path_directly
    (ud : List (String × CharInfo)) (ad : List (String × List String))
    (data_dir : String) (ck : Option String) (payload : String)
    (fs0 : String → Option String) (hud : ud ≠ []) (had : ad ≠ []) :
    save_master_data_file [] ad data_dir ck payload = (none, []) ∧
    save_master_data_file ud [] data_dir ck payload = (none, []) ∧
    (save_master_data_file ud ad data_dir ck payload).1 =
      some (get_master_file_path data_dir ck) ∧
    (save_master_data_file ud ad data_dir ck payload).2 =
      [FsOp.makedirs data_dir,
       FsOp.openTrunc (get_master_file_path data_dir ck),
       FsOp.writeAll (get_master_file_path data_dir ck) payload,
       FsOp.closeFile (get_master_file_path data_dir ck)] ∧
    runFsOps fs0 ((save_master_data_file ud ad data_dir ck payload).2.take 2)
      (get_master_file_path data_dir ck) = some "" ∧
    runFsOps fs0 (save_master_data_file ud ad data_dir ck payload).2
      (get_master_file_path data_dir ck) = some payload ∧
    ((save_master_data_file ud ad data_dir ck payload).2.all
      (fun op => match op with
        | FsOp.renameFile _ _ => false
        | _ => true)) = true := by
  have hcond : ¬(ud = [] ∨ ad = []) := by
    rintro (h | h)
    · exact hud h
    · exact had h
  refine ⟨by simp [save_master_data_file], by simp [save_master_data_file], ?_, ?_, ?_, ?_, ?_⟩
  · simp [save_master_data_file, hcond]
  · simp [save_master_data_file, hcond]
  · simp [save_master_data_file, hcond, runFsOps, applyFsOp]
  · simp [save_master_data_file, hcond, runFsOps, applyFsOp, string_empty_append]
  · simp [save_master_data_file, hcond]

/-- Non-vacuity witness for `c2_save_writes_final_path_directly` at a
one-record dataset. -/
theorem c2_witness :
    (save_master_data_file
      [("0041", ⟨"LATIN CAPITAL LETTER A", "Lu", "A", some "Basic Latin"⟩)]
      [("0041", ["latin letter a"])] "/data" (some "abc") "NEWSNAPSHOT").1 =
      some (get_master_file_path "/data" (some "abc")) ∧
    runFsOps (fun _ => none)
      (save_master_data_file
        [("0041", ⟨"LATIN CAPITAL LETTER A", "Lu", "A", some "Basic Latin"⟩)]
        [("0041", ["latin letter a"])] "/data" (some "abc") "NEWSNAPSHOT").2
      (get_master_file_path "/data" (some "abc")) = some "NEWSNAPSHOT" := by
  have h := c2_save_writes_final_path_directly
    [("0041", ⟨"LATIN CAPITAL LETTER A", "Lu", "A", some "Basic Latin"⟩)]
    [("0041", ["latin letter a"])] "/data" (some "abc") "NEWSNAPSHOT"
    (fun _ => none) (by decide) (by decide)
  exact ⟨h.2.2.1, h.2.2.2.2.2.1⟩

/-! ## MasterSnapshot loading (`processor.py:546-586`, `core.py:191-260`) -/

/-- A JSON value, as produced by `json.load`. -/
inductive JValue
  | jnull
  | jbool (b : Bool)
  | jnum (n : Int)
  | jstr (s : String)
  | jarr (xs : List JValue)
  | jobj (fields : List (String × JValue))

/-- Python `dict.get(key, default)` on a JSON object's fields. -/
def jGet (fields : List (String × JValue)) (key : String) (dflt : JValue) :
    JValue :=
  match fields.lookup key with
  | some v => v
  | none => dflt

/-- Python `len(x)`: defined for strings, lists and dicts; `TypeError`
(modelled as `none`) otherwise. -/
def pyLen : JValue → Option Nat
  | .jstr s => some s.length
  | .jarr xs => some xs.length
  | .jobj fields => some fields.length
  | _ => none

/-- Python truthiness of a JSON value. -/
def pyTruthy : JValue → Bool
  | .jnull => false
  | .jbool b => b
  | .jnum n => decide (n ≠ 0)
  | .jstr s => decide (s ≠ "")
  | .jarr xs => !xs.isEmpty
  | .jobj fields => !fields.isEmpty

/-- Whether a JSON value is an object (a Python mapping). -/
def isJObj : JValue → Bool
  | .jobj _ => true
  | _ => false

/-- The on-disk master file as seen by `load_master_data_file`: missing,
present but not decodable as JSON, or decoded to a JSON value. -/
inductive MasterFile
  | missing
  | unparseable
  | parsed (v : JValue)

/-- `load_master_data_file` (processor.py:546-586): a missing file and a
`json.JSONDecodeError` return `(None, None)`; the generic `except` clause
also returns `(None, None)` whenever extraction raises — `.get` on a
non-mapping top level (`AttributeError`), `.values()` on a non-mapping
`aliases_data`, or `len(...)` on an alias entry or on `unicode_data` with no
length (`TypeError`, evaluated by the two debug-log lines).  Otherwise the
two extracted values are returned VERBATIM — no field-level validation of
character records is performed. -/
def load_master_data_file (file : MasterFile) :
    Option JValue × Option JValue :=
  match file with
  | .missing => (none, none)
  | .unparseable => (none, none)
  | .parsed v =>
    match v with
    | .jobj fields =>
      let unicode_data := jGet fields "unicode_data" (.jobj [])
      let aliases_data := jGet fields "aliases_data" (.jobj [])
      match aliases_data with
      | .jobj afields =>
        if afields.all (fun p => (pyLen p.2).isSome) then
          match pyLen unicode_data with
          | some _ => (some unicode_data, some aliases_data)
          | none => (none, none)
        else (none, none)
      | _ => (none, none)
    | _ => (none, none)

/-- The cache branch of `process_unicode_data` (core.py:195-257): with the
force flag unset, a cached master file found, and both loaded values truthy,
the run skips to export; in every other case — force set, no cached file, or
a falsy load result — it falls through to the full parse-and-merge path. -/
def cache_skip_to_export (force : Bool) (cached_found : Bool)
    (loaded : Option JValue × Option JValue) : Bool :=
  if force then false
  else if cached_found then
    match loaded with
    | (some u, some a) => pyTruthy u && pyTruthy a
    | _ => false
  else false

/-- Structural validity of a master snapshot as the CLAIM words it (modelled
from the claim, for comparison with the code): both top-level fields present
and of mapping type, every character record a mapping carrying its textual
fields (name, category, block, plus the glyph), every alias entry a
sequence. -/
def claimStructurallyValid (v : JValue) : Bool :=
  match v with
  | .jobj fields =>
    match fields.lookup "unicode_data", fields.lookup "aliases_data" with
    | some (.jobj ud), some (.jobj ad) =>
      ud.all (fun p =>
        match p.2 with
        | .jobj r =>
          (match r.lookup "name" with | some (.jstr _) => true | _ => false) &&
          (match r.lookup "category" with | some (.jstr _) => true | _ => false) &&
          (match r.lookup "block" with | some (.jstr _) => true | _ => false) &&
          (match r.lookup "char_obj" with | some (.jstr _) => true | _ => false)
        | _ => false) &&
      ad.all (fun p =>
        match p.2 with
        | .jarr _ => true
        | _ => false)
    | _, _ => false
  | _ => false

/-- C3 counterexample: a structurally invalid snapshot whose single character
record is an empty mapping (no name, category, block or glyph) is NOT
rejected: `load_master_data_file` returns it verbatim as a valid result
instead of `(None, None)`, and the pipeline then skips to export rather than
falling back to the parse-and-merge path. -/
theorem c3_counterexample :
    claimStructurallyValid
      (.jobj [("unicode_data", .jobj [("0041", .jobj [])]),
              ("aliases_data", .jobj [("0041", .jarr [.jstr "a"])])]) = false ∧
    load_master_data_file (.parsed
      (.jobj [("unicode_data", .jobj [("0041", .jobj [])]),
              ("aliases_data", .jobj [("0041", .jarr [.jstr "a"])])])) =
      (some (.jobj [("0041", .jobj [])]),
       some (.jobj [("0041", .jarr [.jstr "a"])])) ∧
    cache_skip_to_export false true
      (load_master_data_file (.parsed
        (.jobj [("unicode_data", .jobj [("0041", .jobj [])]),
                ("aliases_data", .jobj [("0041", .jarr [.jstr "a"])])]))) =
      true := by
  refine ⟨rfl, rfl, rfl⟩

/-- C3 (amended): `load_master_data_file` fails closed — returns
`(None, None)` and never raises (the embedding is total) — for a missing
file, an unparseable file, a non-mapping top level, a non-mapping
`aliases_data`, an alias entry with no length, or a length-less
`unicode_data`; but it performs NO field-level validation: any snapshot whose
two extracted values survive the incidental `len` traversals is returned
verbatim, character records unchecked.  A falsy load result makes the
pipeline fall through to the parse-and-merge path. -/
theorem c3_load_fail_closed_no_validation :
    (load_master_data_file .missing = (none, none) ∧
     load_master_data_file .unparseable = (none, none)) ∧
    (∀ v : JValue, isJObj v = false →
      load_master_data_file (.parsed v) = (none, none)) ∧
    (∀ fields : List (String × JValue),
      isJObj (jGet fields "aliases_data" (.jobj [])) = false →
      load_master_data_file (.parsed (.jobj fields)) = (none, none)) ∧
    (∀ (fields : List (String × JValue)) (afields : List (String × JValue)),
      jGet fields "aliases_data" (.jobj []) = .jobj afields →
      (afields.all (fun p => (pyLen p.2).isSome) = false ∨
        pyLen (jGet fields "unicode_data" (.jobj [])) = none) →
      load_master_data_file (.parsed (.jobj fields)) = (none, none)) ∧
    (∀ (ud ad : List (String × JValue)),
      ad.all (fun p => (pyLen p.2).isSome) = true →
      load_master_data_file (.parsed
        (.jobj [("unicode_data", .jobj ud), ("aliases_data", .jobj ad)])) =
        (some (.jobj ud), some (.jobj ad))) ∧
    (∀ (force found : Bool),
      cache_skip_to_export force found (none, none) = false) := by
  refine ⟨⟨rfl, rfl⟩, ?_, ?_, ?_, ?_, ?_⟩
  · intro v hv
    cases v <;> simp_all [isJObj, load_master_data_file]
  · intro fields hv
    rcases hb : jGet fields "aliases_data" (.jobj []) with _ | b | n | s | xs | af <;>
      simp_all [isJObj, load_master_data_file]
  · intro fields afields hb hbad
    rcases hbad with hbad | hbad <;>
      simp_all [load_master_data_file]
  · intro ud ad hall
    have h1 : jGet [("unicode_data", JValue.jobj ud), ("aliases_data", JValue.jobj ad)]
        "unicode_data" (.jobj []) = .jobj ud := by
      simp [jGet, List.lookup]
    have h2 : jGet [("unicode_data", JValue.jobj ud), ("aliases_data", JValue.jobj ad)]
        "aliases_data" (.jobj []) = .jobj ad := by
      simp [jGet, List.lookup,
        show (("aliases_data" : String) == "unicode_data") = false from by decide]
    simp only [load_master_data_file, h1, h2, hall, if_true, pyLen]
    exact if_pos hall
  · intro force found
    cases force <;> cases found <;> rfl

/-- Non-vacuity witness for `c3_load_fail_closed_no_validation`: an
array-shaped top level and an array-shaped `aliases_data` both fail closed;
an unvalidated record round-trips; a falsy load falls back. -/
theorem c3_witness :
    load_master_data_file (.parsed (.jarr [.jstr "x"])) = (none, none) ∧
    load_master_data_file (.parsed
      (.jobj [("unicode_data", .jobj []), ("aliases_data", .jarr [])])) =
      (none, none) ∧
    load_master_data_file (.parsed
      (.jobj [("unicode_data", .jobj [("0041", .jnull)]),
              ("aliases_data", .jobj [("0041", .jarr [])])])) =
      (some (.jobj [("0041", .jnull)]), some (.jobj [("0041", .jarr [])])) ∧
    cache_skip_to_export false true (none, none) = false := by
  refine ⟨?_, ?_, ?_, ?_⟩
  · exact c3_load_fail_closed_no_validation.2.1 (.jarr [.jstr "x"]) rfl
  · exact c3_load_fail_closed_no_validation.2.2.1
      [("unicode_data", .jobj []), ("aliases_data", .jarr [])] rfl
  · exact c3_load_fail_closed_no_validation.2.2.2.2.1
      [("0041", .jnull)] [("0041", .jarr [])] rfl
  · exact c3_load_fail_closed_no_validation.2.2.2.2.2 false true

/-! ## CSV export shape (`exporter.py:124-255`, `exporters/csv_exporter.py:40-96`) -/

/-- The `max_aliases` computation of `CSVExporter.write`
(csv_exporter.py:61-67): the maximum alias count over the characters of the
dataset (`for cp in unicode_data: if cp in aliases_data`). -/
def CSVExporter_write_max_aliases (unicode_data : List (String × CharInfo))
    (aliases_data : List (String × List String)) : Nat :=
  if aliases_data = [] then 0
  else unicode_data.foldl (fun acc p =>
    match aliases_data.lookup p.1 with
    | some l => max acc l.length
    | none => acc) 0

/-- The `max_aliases` computation of `optimized_export` (exporter.py:219-224):
the maximum alias count over ALL entries of the alias mapping
(`for aliases in aliases_data.values()`), including entries whose code point
has no character record. -/
def optimized_export_max_aliases (aliases_data : List (String × List String)) :
    Nat :=
  if aliases_data = [] then 0
  else aliases_data.foldl (fun acc p => max acc p.2.length) 0

/-- The CSV header row (exporter.py:228-231 and csv_exporter.py:70-72):
`code_point,character,name,category,block` then `alias_1..alias_N`. -/
def csv_headers (max_aliases : Nat) : List String :=
  ["code_point", "character", "name", "category", "block"] ++
    (List.range max_aliases).map fun i => "alias_" ++ toString (i + 1)

/-- One CSV data row (exporter.py:241-255): the five record fields then
`max_aliases` alias cells, missing positions left empty. -/
def optimized_export_csv_row (code_point_hex : String) (data : CharInfo)
    (current_aliases : List String) (max_aliases : Nat) : List String :=
  ["U+" ++ code_point_hex, data.char_obj, data.name, data.category,
    data.block.getD "Unknown Block"] ++
    (List.range max_aliases).map fun i => current_aliases.getD i ""

/-- The state of one format's file handle in `optimized_export`: whether the
underlying file object is still open, and the rows it has accepted so far. -/
structure CsvWriterState where
  handleOpen : Bool
  rows : List (List String)

/-- `csv.writer(file_handler).writerow(row)`: appends the row when the
underlying handle is open; on a closed handle Python raises
`ValueError("I/O operation on closed file")`. -/
def writerow (st : CsvWriterState) (row : List String) :
    Except String CsvWriterState :=
  if st.handleOpen then .ok { st with rows := st.rows ++ [row] }
  else .error "I/O operation on closed file"

/-- The record loop of `optimized_export` for the `csv` format
(exporter.py:233-255): one `writerow` per record, the first failure
propagating. -/
def optimized_export_write_rows (aliases_data : List (String × List String))
    (max_aliases : Nat) :
    CsvWriterState → List (String × CharInfo) → Except String CsvWriterState
  | st, [] => .ok st
  | st, p :: rest =>
    match writerow st (optimized_export_csv_row p.1 p.2
        ((aliases_data.lookup p.1).getD []) max_aliases) with
    | .error e => .error e
    | .ok st' => optimized_export_write_rows aliases_data max_aliases st' rest

/-- Steps 1-2 of `optimized_export` for a `csv`-only export
(exporter.py:165-255), handle state included: the
`with open(temp_filename, ...) as file_handler:` block (196-199) holds ONLY
the assignment `file_handlers[fmt] = file_handler`, so the handle is open
inside the block and closed the moment it ends — BEFORE the header
`writerow` (231) or any record row (255).  The header is sized by
`optimized_export_max_aliases` (219-224) and built (228-230) before the
write is attempted; the first write failure is re-raised (425-427). -/
def optimized_export_csv_run (unicode_data : List (String × CharInfo))
    (aliases_data : List (String × List String)) :
    Except String (List (List String)) :=
  let opened : CsvWriterState := { handleOpen := true, rows := [] }
  let after_with : CsvWriterState := { opened with handleOpen := false }
  let max_aliases := optimized_export_max_aliases aliases_data
  let headers := csv_headers max_aliases
  match writerow after_with headers with
  | .error e => .error e
  | .ok st =>
    match optimized_export_write_rows aliases_data max_aliases st unicode_data with
    | .error e => .error e
    | .ok st' => .ok st'.rows

/-- The CSV table written by `CSVExporter.write` (csv_exporter.py:56-93):
empty-input rejection (57-59), header sized by the PER-RECORD alias maximum
(61-72), one row per record (80-91, the same row shape as
exporter.py:243-253).  This writer opens its file correctly — its writes
happen inside the `with` block (76-91) — but the uniff_charset export path
never calls it (it only uses `.verify`, exporter.py:408). -/
def CSVExporter_write_csv (unicode_data : List (String × CharInfo))
    (aliases_data : List (String × List String)) : List (List String) :=
  if unicode_data = [] then []
  else
    let max_aliases := CSVExporter_write_max_aliases unicode_data aliases_data
    csv_headers max_aliases ::
      unicode_data.map fun p =>
        optimized_export_csv_row p.1 p.2 ((aliases_data.lookup p.1).getD [])
          max_aliases

theorem le_foldl_max (l : List Nat) (a : Nat) : a ≤ l.foldl max a := by
  induction l generalizing a with
  | nil => exact le_refl a
  | cons x xs ih => exact le_trans (le_max_left a x) (ih (max a x))

theorem mem_le_foldl_max {l : List Nat} {x : Nat} (a : Nat) (hx : x ∈ l) :
    x ≤ l.foldl max a := by
  induction l generalizing a with
  | nil => simp at hx
  | cons y ys ih =>
    rcases List.mem_cons.mp hx with rfl | hx'
    · exact le_trans (le_max_right a x) (le_foldl_max ys (max a x))
    · exact ih (max a y) hx'

theorem foldl_max_le {l : List Nat} {a b : Nat} (ha : a ≤ b)
    (h : ∀ x ∈ l, x ≤ b) : l.foldl max a ≤ b := by
  induction l generalizing a with
  | nil => exact ha
  | cons x xs ih =>
    exact ih (max_le ha (h x (by simp))) fun y hy => h y (by simp [hy])

theorem lookup_of_mem_nodup {l : List (String × List String)} {k : String}
    {v : List String} (hnd : (l.map Prod.fst).Nodup) (hm : (k, v) ∈ l) :
    l.lookup k = some v := by
  induction l with
  | nil => simp at hm
  | cons p rest ih =>
    obtain ⟨pk, pv⟩ := p
    simp only [List.map_cons, List.nodup_cons] at hnd
    rcases List.mem_cons.mp hm with heq | hm'
    · injection heq with h1 h2
      subst h1
      subst h2
      simp [List.lookup]
    · have hk : k ≠ pk := by
        rintro rfl
        exact hnd.1 (List.mem_map.mpr ⟨(k, v), hm', rfl⟩)
      simp only [List.lookup, beq_false_of_ne hk]
      exact ih hnd.2 hm'

theorem mem_of_lookup {l : List (String × List String)} {k : String}
    {v : List String} (h : l.lookup k = some v) : (k, v) ∈ l := by
  induction l with
  | nil => simp [List.lookup] at h
  | cons p rest ih =>
    obtain ⟨pk, pv⟩ := p
    by_cases hk : k = pk
    · subst hk
      simp only [List.lookup, beq_self_eq_true] at h
      cases h
      exact List.mem_cons_self _ _
    · simp only [List.lookup, beq_false_of_ne hk] at h
      exact List.mem_cons_of_mem _ (ih h)

theorem optimized_eq_write_max {ud : List (String × CharInfo)}
    {ad : List (String × List String)} (hadnd : (ad.map Prod.fst).Nodup)
    (hsub : ∀ k ∈ ad.map Prod.fst, k ∈ ud.map Prod.fst) :
    optimized_export_max_aliases ad = CSVExporter_write_max_aliases ud ad := by
  unfold optimized_export_max_aliases CSVExporter_write_max_aliases
  by_cases had : ad = []
  · rw [if_pos had, if_pos had]
  · rw [if_neg had, if_neg had]
    have h1 : ad.foldl (fun acc p => max acc p.2.length) 0 =
        (ad.map fun p => p.2.length).foldl max 0 := by
      rw [List.foldl_map]
    have h2 : ud.foldl (fun acc p =>
        match ad.lookup p.1 with
        | some l => max acc l.length
        | none => acc) 0 =
        (ud.map fun p => ((ad.lookup p.1).map List.length).getD 0).foldl max 0 := by
      rw [List.foldl_map]
      congr 1
      funext acc p
      rcases h : ad.lookup p.1 with _ | l <;> simp [h]
    rw [h1, h2]
    apply le_antisymm
    · apply foldl_max_le (Nat.zero_le _)
      intro x hx
      rcases List.mem_map.mp hx with ⟨p, hp, rfl⟩
      have hkey : p.1 ∈ ud.map Prod.fst :=
        hsub p.1 (List.mem_map.mpr ⟨p, hp, rfl⟩)
      rcases List.mem_map.mp hkey with ⟨q, hq, hq1⟩
      have hlook : ad.lookup q.1 = some p.2 := by
        rw [hq1]
        exact lookup_of_mem_nodup hadnd hp
      apply mem_le_foldl_max
      exact List.mem_map.mpr ⟨q, hq, by simp [hlook]⟩
    · apply foldl_max_le (Nat.zero_le _)
      intro x hx
      rcases List.mem_map.mp hx with ⟨q, hq, rfl⟩
      rcases h : ad.lookup q.1 with _ | l
      · simp [h]
      · have hmem : (q.1, l) ∈ ad := mem_of_lookup h
        have hle := mem_le_foldl_max (l := ad.map fun p => p.2.length) 0
          (List.mem_map.mpr ⟨(q.1, l), hmem, rfl⟩)
        simpa [h] using hle

/-- C4 (code bug): the operative CSV export path never writes the claimed
header or rows.  `optimized_export` closes every file handle at the end of
the one-statement `with` block (exporter.py:196-199), so for EVERY dataset
the very first header write raises
`ValueError("I/O operation on closed file")` and no CSV is produced — in
particular at the spec's own single-record scenario input, where the claimed
two-line table (header `code_point,character,name,category,block,alias_1`
plus one 5+1-field row) is exactly what the correctly written but uncalled
`CSVExporter.write` produces, per-record alias maximum included. -/
theorem c4_csv_export_crashes_before_writing :
    (∀ (ud : List (String × CharInfo)) (ad : List (String × List String)),
      optimized_export_csv_run ud ad =
        .error "I/O operation on closed file") ∧
    optimized_export_csv_run
      [("0041", ⟨"LATIN CAPITAL LETTER A", "Lu", "A", some "Basic Latin"⟩)]
      [("0041", ["latin letter a"])] =
      .error "I/O operation on closed file" ∧
    CSVExporter_write_csv
      [("0041", ⟨"LATIN CAPITAL LETTER A", "Lu", "A", some "Basic Latin"⟩)]
      [("0041", ["latin letter a"])] =
      [["code_point", "character", "name", "category", "block", "alias_1"],
       ["U+0041", "A", "LATIN CAPITAL LETTER A", "Lu", "Basic Latin",
        "latin letter a"]] := by
  refine ⟨fun ud ad => rfl, rfl, by decide⟩

/-! ## Export entry (`exporter.py:41-121`) -/

/-- `ExportOptions` (uniff_core/types.py:32-41 plus the charset subclass
fields, uniff_charset/types.py:20-24): the fields consulted by `export_data`
before format resolution. -/
structure ExportOptions where
  format_type : String
  output_dir : String
  use_master_file : Bool
  master_file_path : Option String
  dataset : String
  unicode_blocks : Option (List String)
  compress : Bool

/-- Outcome of the pre-format stage of `export_data`: a raised `ValueError`
with its message, or control proceeding to the per-format export with the
(possibly reloaded and filtered) dataset. -/
inductive ExportOutcome
  | raises (msg : String)
  | proceeds (unicode_data : List (String × CharInfo))
      (aliases_data : List (String × List String))

/-- The filtering and post-filter emptiness stage of `export_data`
(exporter.py:77-95): filter by dataset name, or else by Unicode blocks; an
empty filtered record mapping raises `ValueError("No output files
generated")`; only past that check is the output directory created. -/
def export_data_filter (datasets : List (String × List String))
    (unicode_data : List (String × CharInfo))
    (aliases_data : List (String × List String)) (options : ExportOptions)
    (trace : List FsOp) : ExportOutcome × List FsOp :=
  let filtered :=
    if options.dataset ≠ "" then
      filter_by_dataset datasets unicode_data aliases_data options.dataset
    else
      match options.unicode_blocks with
      | some bl =>
        if bl ≠ [] then filter_by_unicode_blocks unicode_data aliases_data (some bl)
        else (unicode_data, aliases_data)
      | none => (unicode_data, aliases_data)
  if filtered.1 = [] then (.raises "No output files generated", trace)
  else (.proceeds filtered.1 filtered.2,
    trace ++ [FsOp.makedirs options.output_dir])

/-- `export_data` (exporter.py:41-121) up to format resolution, the scope of
its emptiness contract: the empty-input check raises
`ValueError("No data to export")` FIRST, before any filesystem access; then
the optional master-file reload (`mf_load` models `load_master_data_file` on
the master path, `none` standing for its `(None, None)` failure result, with
the reload's own emptiness check raising `ValueError("Failed to load data
from master file")`); then filtering and the post-filter check; and only
after all checks the creation of the output directory (exporter.py:94). -/
def export_data (datasets : List (String × List String))
    (mf_load : String →
      Option (List (String × CharInfo) × List (String × List String)))
    (unicode_data : List (String × CharInfo))
    (aliases_data : List (String × List String)) (options : ExportOptions) :
    ExportOutcome × List FsOp :=
  if unicode_data = [] ∨ aliases_data = [] then
    (.raises "No data to export", [])
  else
    if options.use_master_file then
      match options.master_file_path with
      | some path =>
        if path = "" then
          export_data_filter datasets unicode_data aliases_data options []
        else
          match mf_load path with
          | none =>
            (.raises "Failed to load data from master file", [FsOp.readFile path])
          | some (u, a) =>
            if u = [] ∨ a = [] then
              (.raises "Failed to load data from master file", [FsOp.readFile path])
            else export_data_filter datasets u a options [FsOp.readFile path]
      | none => export_data_filter datasets unicode_data aliases_data options []
    else export_data_filter datasets unicode_data aliases_data options []

/-- C9: `export_data` rejects an empty dataset with a
`ValueError("No data to export")` before touching the filesystem — the
operation trace is empty, so no output directory is created and no file is
opened; and a dataset that becomes empty after filtering is rejected with the
distinct data-error `ValueError("No output files generated")`, likewise
before any filesystem operation, rather than surfacing as a filesystem
error. -/
theorem c9_export_empty_rejection (datasets : List (String × List String))
    (mf_load : String →
      Option (List (String × CharInfo) × List (String × List String)))
    (ud : List (String × CharInfo)) (ad : List (String × List String))
    (opts : ExportOptions) (bl : List String)
    (huse : opts.use_master_file = false) (hds : opts.dataset = "")
    (hbl : opts.unicode_blocks = some bl) (hblne : bl ≠ [])
    (hud : ud ≠ []) (had : ad ≠ [])
    (hempty : (filter_by_unicode_blocks ud ad (some bl)).1 = []) :
    (∀ ad' opts', export_data datasets mf_load [] ad' opts' =
      (.raises "No data to export", [])) ∧
    (∀ ud' opts', export_data datasets mf_load ud' [] opts' =
      (.raises "No data to export", [])) ∧
    export_data datasets mf_load ud ad opts =
      (.raises "No output files generated", []) := by
  refine ⟨?_, ?_, ?_⟩
  · intro ad' opts'
    simp [export_data]
  · intro ud' opts'
    simp [export_data]
  · have hcond : ¬(ud = [] ∨ ad = []) := by
      rintro (h | h)
      · exact hud h
      · exact had h
    unfold export_data
    rw [if_neg hcond, huse, if_neg (by simp)]
    unfold export_data_filter
    rw [hds]
    simp only [ne_eq, not_true_eq_false, if_false, hbl]
    rw [if_pos hblne, if_pos hempty]

/-- Non-vacuity witness for `c9_export_empty_rejection`: a Basic Latin record
filtered by the Greek block yields the data-error outcome. -/
theorem c9_witness :
    export_data [] (fun _ => none)
      [("0041", ⟨"LATIN CAPITAL LETTER A", "Lu", "A", some "Basic Latin"⟩)]
      [("0041", ["latin letter a"])]
      ⟨"csv", "/out", false, none, "", some ["Greek and Coptic"], false⟩ =
      (.raises "No output files generated", []) ∧
    export_data [] (fun _ => none) []
      [("0041", ["latin letter a"])]
      ⟨"csv", "/out", false, none, "", some ["Greek and Coptic"], false⟩ =
      (.raises "No data to export", []) := by
  have h := c9_export_empty_rejection [] (fun _ => none)
    [("0041", ⟨"LATIN CAPITAL LETTER A", "Lu", "A", some "Basic Latin"⟩)]
    [("0041", ["latin letter a"])]
    ⟨"csv", "/out", false, none, "", some ["Greek and Coptic"], false⟩
    ["Greek and Coptic"] rfl rfl rfl (by decide) (by decide) (by decide)
    (by decide)
  exact ⟨h.2.2, h.1 [("0041", ["latin letter a"])]
    ⟨"csv", "/out", false, none, "", some ["Greek and Coptic"], false⟩⟩

/-- C10: `export_data` raises `ValueError("No data to export")` — before any
filesystem operation — whenever the alias mapping is empty, even when the
character-record mapping is non-empty: `if not unicode_data or not
aliases_data` (exporter.py:58) treats an alias-free dataset exactly like an
empty dataset. -/
theorem c10_empty_alias_mapping_rejected
    (datasets : List (String × List String))
    (mf_load : String →
      Option (List (String × CharInfo) × List (String × List String)))
    (ud : List (String × CharInfo)) (opts : ExportOptions) :
    export_data datasets mf_load ud [] opts =
      (.raises "No data to export", []) := by
  simp [export_data]
